import Mathlib

/-!
# Verification of the podcast pipeline core

A shallow embedding of the deterministic core of the podcast-generation
pipeline: the highlight segmenter (`highlightService`), the highlight
persistence operation (`podcast.generateHighlights`), the avatar-video
subpipeline (`generateAvatarVideo`, `heygenService.pollVideoStatus`,
`processAvatarVideoGeneration`), the audio merge operation
(`audioMergeService.mergeAudioSegments`), the retry/fallback logic of the
external-service call sites (`transcribeAudio`, `invokeLLM`), and the task
state machine driven by `processPodcastTask`.

Machine numbers: the source computes `Math.floor(chars * 0.3)` and
`Math.ceil(chars * 0.3)` over IEEE-754 doubles.  For every natural `n` in
range, `n * 0.3` (with `0.3` the nearest double, whose relative error is
about `3.7e-17`, i.e. below half an ulp) rounds to a double whose floor and
ceiling agree with the exact rational `3n/10`: when `10 ∣ 3n` the product
rounds back to the exact integer, and otherwise the exact value is at least
`1/10` away from any integer while the float error is below `1e-10` for all
segment sizes that fit in memory.  The embedding therefore uses exact
natural-number arithmetic: `floor (n * 0.3) = 3n / 10` and
`ceil (n * 0.3) = (3n + 9) / 10`.

JavaScript `String.prototype.length` counts UTF-16 code units while Lean's
`String.length` counts code points; these agree on all BMP text (including
the CJK text this program handles), and all concrete inputs used below are
ASCII.
-/

namespace Podesign

/-! ## Highlight segmenter (`services/highlightService.ts`) -/

/-- One dialogue turn of the generated podcast script. -/
structure PodcastScript where
  speakerId : String
  speakerName : String
  content : String
  deriving Repr, DecidableEq

/-- One candidate segment proposed by the text-generation call, as the
`[startIndex, endIndex, title, description, reason]` record the LLM returns
(the deterministic post-processing consumes it unchanged). -/
structure LLMSegment where
  title : String
  description : String
  startIndex : Nat
  endIndex : Nat
  reason : String
  deriving Repr, DecidableEq

/-- Output record of `identifyHighlights`. -/
structure HighlightSegment where
  title : String
  description : String
  startTime : Nat
  endTime : Nat
  duration : Nat
  transcript : String
  reason : String
  deriving Repr, DecidableEq

/-- `MAX_HIGHLIGHT_DURATION` from `highlightService.ts` (59 s safety margin
under the avatar engine's 60 s cap). -/
def MAX_HIGHLIGHT_DURATION : Nat := 59

/-- `Math.floor(chars * 0.3)` in exact arithmetic (see header note). -/
def floorCharsTimes03 (chars : Nat) : Nat := chars * 3 / 10

/-- `Math.ceil(chars * 0.3)` in exact arithmetic (see header note). -/
def ceilCharsTimes03 (chars : Nat) : Nat := (chars * 3 + 9) / 10

/-- The per-segment deterministic post-processing of `identifyHighlights`
(`highlightService.ts`, the body of the `for (const segment of
result.segments)` loop):

* `segmentScripts = scripts.slice(startIndex, endIndex + 1)`;
* `transcript` joins `"${speakerName}: ${content}"` lines with `"\n"`;
* `previousChars` sums the `content.length` of the turns before
  `startIndex`;
* `startTime = Math.floor(previousChars * 0.3)`;
* raw duration `= Math.ceil(transcript.length * 0.3)`, clamped to
  `MAX_HIGHLIGHT_DURATION`;
* `endTime = startTime + clamped duration`. -/
def processSegment (scripts : List PodcastScript) (seg : LLMSegment) :
    HighlightSegment :=
  let segmentScripts := (scripts.drop seg.startIndex).take (seg.endIndex + 1 - seg.startIndex)
  let transcript := String.intercalate "\n"
    (segmentScripts.map fun s => s.speakerName ++ ": " ++ s.content)
  let previousChars := ((scripts.take seg.startIndex).map fun s => s.content.length).sum
  let startTime := floorCharsTimes03 previousChars
  let charCount := transcript.length
  let rawDuration := ceilCharsTimes03 charCount
  let estimatedDuration :=
    if rawDuration > MAX_HIGHLIGHT_DURATION then MAX_HIGHLIGHT_DURATION else rawDuration
  let endTime := startTime + estimatedDuration
  { title := seg.title
    description := seg.description
    startTime := startTime
    endTime := endTime
    duration := estimatedDuration
    transcript := transcript
    reason := seg.reason }

/-- The deterministic part of `identifyHighlights`: the list of highlight
candidates produced from the dialogue turns and the LLM-proposed segments. -/
def identifyHighlights (scripts : List PodcastScript) (segs : List LLMSegment) :
    List HighlightSegment :=
  segs.map (processSegment scripts)

end Podesign

namespace Podesign

/-! ## Theorems for claims C1 and C2 -/

/-- The clamp used by the segmenter never exceeds `59`. -/
theorem clamp_le_59 (r : Nat) :
    (if r > MAX_HIGHLIGHT_DURATION then MAX_HIGHLIGHT_DURATION else r) ≤ 59 := by
  unfold MAX_HIGHLIGHT_DURATION
  split
  · exact Nat.le_refl 59
  · next h => exact Nat.le_of_not_lt h

/-- Every member of an `identifyHighlights` output satisfies the timing
bounds (shared helper). -/
theorem highlightSegment_bounds (scripts : List PodcastScript)
    (segs : List LLMSegment) (h : HighlightSegment)
    (hmem : h ∈ identifyHighlights scripts segs) :
    h.endTime - h.startTime = h.duration ∧ h.duration ≤ 59 ∧
      h.endTime = h.startTime + h.duration := by
  rcases List.mem_map.mp hmem with ⟨seg, -, rfl⟩
  exact ⟨Nat.add_sub_cancel_left _ _, clamp_le_59 _, rfl⟩

/-- Claim C1: For every highlight candidate returned by `identifyHighlights`,
`endTime - startTime = duration` and `duration ≤ 59`; `endTime` is always
`startTime` plus the clamped duration, so even when the raw estimate exceeds
59 seconds the claimed window never exceeds 59 seconds. -/
theorem identifyHighlights_duration_invariant
    (scripts : List PodcastScript) (segs : List LLMSegment)
    (h : HighlightSegment) (hmem : h ∈ identifyHighlights scripts segs) :
    h.endTime - h.startTime = h.duration ∧ h.duration ≤ 59 ∧
      h.endTime = h.startTime + h.duration :=
  highlightSegment_bounds scripts segs h hmem

/-- Witness for `identifyHighlights_duration_invariant` at a concrete input. -/
theorem identifyHighlights_duration_invariant_witness :
    (processSegment
          [⟨"host1", "A", "hello world this is a test of the highlighter"⟩]
          ⟨"t", "d", 0, 0, "r"⟩).endTime -
        (processSegment
          [⟨"host1", "A", "hello world this is a test of the highlighter"⟩]
          ⟨"t", "d", 0, 0, "r"⟩).startTime =
      (processSegment
          [⟨"host1", "A", "hello world this is a test of the highlighter"⟩]
          ⟨"t", "d", 0, 0, "r"⟩).duration ∧
      (processSegment
          [⟨"host1", "A", "hello world this is a test of the highlighter"⟩]
          ⟨"t", "d", 0, 0, "r"⟩).duration ≤ 59 ∧
      (processSegment
          [⟨"host1", "A", "hello world this is a test of the highlighter"⟩]
          ⟨"t", "d", 0, 0, "r"⟩).endTime =
        (processSegment
          [⟨"host1", "A", "hello world this is a test of the highlighter"⟩]
          ⟨"t", "d", 0, 0, "r"⟩).startTime +
        (processSegment
          [⟨"host1", "A", "hello world this is a test of the highlighter"⟩]
          ⟨"t", "d", 0, 0, "r"⟩).duration :=
  identifyHighlights_duration_invariant
    [⟨"host1", "A", "hello world this is a test of the highlighter"⟩]
    [⟨"t", "d", 0, 0, "r"⟩] _ (List.mem_singleton.mpr rfl)

/-- Scenario A input: 5 dialogue turns whose `content` character lengths are
[20, 25, 18, 30, 22]; speaker names are empty (the most favourable case for
the claim, since any non-empty name only enlarges the transcript). -/
def scenarioAScripts : List PodcastScript :=
  [⟨"host1", "", "aaaaaaaaaaaaaaaaaaaa"⟩,
   ⟨"host2", "", "bbbbbbbbbbbbbbbbbbbbbbbbb"⟩,
   ⟨"host1", "", "cccccccccccccccccc"⟩,
   ⟨"host2", "", "dddddddddddddddddddddddddddddd"⟩,
   ⟨"host1", "", "eeeeeeeeeeeeeeeeeeeeee"⟩]

/-- Scenario A proposed segment: turn range [0, 2]. -/
def scenarioASeg : LLMSegment := ⟨"t", "d", 0, 2, "r"⟩

/-- Claim C2 counterexample: On the scenario-A input (content lengths
[20, 25, 18, 30, 22], segment [0, 2]) the post-processing does *not* yield
duration 19 and endTime 19: the duration is computed from the length of the
formatted transcript (`"speakerName: content"` lines joined by newlines),
which is 71 even with empty speaker names, so the duration is
`ceil(71 * 0.3) = 22`, not `ceil(63 * 0.3) = 19`. -/
theorem scenarioA_duration_ne_19 :
    (processSegment scenarioAScripts scenarioASeg).startTime = 0 ∧
      (processSegment scenarioAScripts scenarioASeg).duration ≠ 19 ∧
      (processSegment scenarioAScripts scenarioASeg).endTime ≠ 19 := by
  decide

/-- Claim C2 amended: On the scenario-A input the post-processing yields
`startTime = 0`, but the raw duration is computed from the character count of
the *formatted* transcript — each included turn contributes
`speakerName.length + 2 + content.length` and the lines are joined by
newlines — which is `63 + 3·2 + 2 = 71` here, giving
`duration = ceil(71 * 0.3) = 22` and `endTime = 22` (no clamping
triggered). -/
theorem scenarioA_values :
    (processSegment scenarioAScripts scenarioASeg).startTime = 0 ∧
      (processSegment scenarioAScripts scenarioASeg).transcript.length = 71 ∧
      (processSegment scenarioAScripts scenarioASeg).duration = ceilCharsTimes03 71 ∧
      (processSegment scenarioAScripts scenarioASeg).duration = 22 ∧
      (processSegment scenarioAScripts scenarioASeg).endTime = 22 := by
  decide

/-! ## Avatar-video subpipeline (`podcast.generateAvatarVideo`,
`heygenService.pollVideoStatus`, `processAvatarVideoGeneration`) -/

/-- A persisted Highlight record, as read by `generateAvatarVideo`
(`getHighlight`).  `audioUrl` is `none` when the column is null/empty
(the JS truthiness check `!highlight.audioUrl`). -/
structure HighlightRecord where
  title : String
  duration : Nat
  audioUrl : Option String
  deriving Repr, DecidableEq

/-- Side effects performed by the avatar-video submission, in program
order. -/
inductive AvatarSubmitAction where
  | createTaskRecord (status : String)
  | startBackgroundProcessing
  deriving Repr, DecidableEq

/-- The `podcast.generateAvatarVideo` mutation (`routers.ts`): look up the
highlight, require an audio URL, validate `2 ≤ duration ≤ 60` *before*
creating the AvatarVideoTask record or starting the background engine call;
on success persist the record with status `pending` and fire the background
processing. Returns the performed side effects in program order together
with the result. -/
def generateAvatarVideo (highlight : Option HighlightRecord) :
    List AvatarSubmitAction × Except String String :=
  match highlight with
  | none => ([], .error "精華片段不存在")
  | some h =>
    match h.audioUrl with
    | none => ([], .error "精華片段沒有音訊檔")
    | some _ =>
      if h.duration < 2 then
        ([], .error "音訊時長太短，必須至少 2 秒")
      else if h.duration > 60 then
        ([], .error "音訊時長超過 60 秒，無法生成虛擬主播影片。請重新生成精華片段。")
      else
        ([.createTaskRecord "pending", .startBackgroundProcessing],
         .ok "submitted")

/-- HeyGen video status values (`heygenService.ts`). -/
inductive HeyGenStatus where
  | pending | waiting | processing | completed | failed
  deriving Repr, DecidableEq

/-- The `data` part of a HeyGen `video_status.get` response. -/
structure VideoStatusData where
  status : HeyGenStatus
  video_url : Option String
  thumbnail_url : Option String
  duration : Option Nat
  errorMessage : Option String
  deriving Repr, DecidableEq

/-- Outcome of `pollVideoStatus`: a returned response, or a thrown error
message. -/
inductive PollOutcome where
  | ok (d : VideoStatusData)
  | error (msg : String)
  deriving Repr, DecidableEq

/-- The message of the error thrown when the attempt budget is exhausted. -/
def pollTimeoutMessage (maxAttempts : Nat) : String :=
  "Video generation timeout after " ++ toString maxAttempts ++ " attempts"

/-- The loop body of `heygenService.pollVideoStatus`: `statuses n` is the
response of the `n`-th `getVideoStatus` call.  `completed` returns the
response; `failed` throws the provider's error message (default
`"Video generation failed"`); any other status sleeps and polls again; when
all `maxAttempts` attempts are spent without a terminal status it throws the
timeout error. -/
def pollVideoStatusGo (statuses : Nat → VideoStatusData) (maxAttempts : Nat) :
    Nat → PollOutcome
  | attempt =>
    if _h : attempt < maxAttempts then
      let r := statuses attempt
      match r.status with
      | .completed => .ok r
      | .failed => .error (r.errorMessage.getD "Video generation failed")
      | _ => pollVideoStatusGo statuses maxAttempts (attempt + 1)
    else
      .error (pollTimeoutMessage maxAttempts)
  termination_by attempt => maxAttempts - attempt

/-- `heygenService.pollVideoStatus` with its default budget of 60 attempts
at a 10 s interval (the interval only schedules the sleeps and does not
affect the outcome). -/
def pollVideoStatus (statuses : Nat → VideoStatusData)
    (maxAttempts : Nat := 60) : PollOutcome :=
  pollVideoStatusGo statuses maxAttempts 0

/-- Mutable fields of an AvatarVideoTask record touched by the background
processing. -/
structure AvatarTaskRecord where
  status : String
  apiVideoId : Option String
  videoUrl : Option String
  thumbnailUrl : Option String
  duration : Option Nat
  errorMessage : Option String
  statusMessage : Option String
  deriving Repr, DecidableEq

/-- `processAvatarVideoGeneration` (`routers.ts`): set status `submitted`,
call the engine's create operation (`createResult` is its outcome), persist
the external id and move to `processing`, poll with budget 60, and reach
exactly one terminal update; every thrown error is caught and recorded as a
`failed` status carrying the error message. -/
def processAvatarVideoGeneration (createResult : Except String String)
    (statuses : Nat → VideoStatusData) (init : AvatarTaskRecord) :
    AvatarTaskRecord :=
  let s1 := { init with status := "submitted" }
  match createResult with
  | .error e =>
    { s1 with status := "failed", errorMessage := some e, statusMessage := some e }
  | .ok videoId =>
    let s2 := { s1 with apiVideoId := some videoId, status := "processing" }
    match pollVideoStatus statuses 60 with
    | .error e =>
      { s2 with status := "failed", errorMessage := some e, statusMessage := some e }
    | .ok r =>
      match r.video_url with
      | none =>
        { s2 with status := "failed",
                  errorMessage := some "No video URL returned",
                  statusMessage := some "No video URL returned" }
      | some url =>
        { s2 with status := "completed",
                  videoUrl := some url,
                  thumbnailUrl := r.thumbnail_url,
                  duration := r.duration,
                  statusMessage := some "影片生成成功" }

end Podesign

namespace Podesign

/-! ## Theorems for claims C4 and C5 -/

/-- Claim C4: Avatar-video submission validates the highlight's duration
locally before any remote call or task-record creation: with an audio URL
present, duration `< 2` and duration `> 60` are rejected with *no* side
effect (no AvatarVideoTask record persisted, no engine call started), while
`2 ≤ duration ≤ 60` is accepted — the record is created with status
`pending` and the background engine processing is started. -/
theorem generateAvatarVideo_duration_validation (h : HighlightRecord)
    (hAudio : h.audioUrl.isSome) :
    (h.duration < 2 →
      generateAvatarVideo (some h) = ([], .error "音訊時長太短，必須至少 2 秒")) ∧
    (h.duration > 60 →
      generateAvatarVideo (some h) =
        ([], .error "音訊時長超過 60 秒，無法生成虛擬主播影片。請重新生成精華片段。")) ∧
    (2 ≤ h.duration → h.duration ≤ 60 →
      generateAvatarVideo (some h) =
        ([.createTaskRecord "pending", .startBackgroundProcessing],
         .ok "submitted")) := by
  obtain ⟨u, hu⟩ := Option.isSome_iff_exists.mp hAudio
  refine ⟨?_, ?_, ?_⟩
  · intro hlt
    simp only [generateAvatarVideo, hu]
    rw [if_pos hlt]
  · intro hgt
    simp only [generateAvatarVideo, hu]
    rw [if_neg (by omega), if_pos hgt]
  · intro hge hle
    simp only [generateAvatarVideo, hu]
    rw [if_neg (by omega), if_neg (by omega)]

/-- Witness for `generateAvatarVideo_duration_validation`: durations 1 and
61 are rejected without side effects, durations 2 and 60 are accepted. -/
theorem generateAvatarVideo_duration_validation_witness :
    (generateAvatarVideo (some ⟨"t", 1, some "a.mp3"⟩) =
        ([], .error "音訊時長太短，必須至少 2 秒")) ∧
    (generateAvatarVideo (some ⟨"t", 61, some "a.mp3"⟩) =
        ([], .error "音訊時長超過 60 秒，無法生成虛擬主播影片。請重新生成精華片段。")) ∧
    (generateAvatarVideo (some ⟨"t", 2, some "a.mp3"⟩) =
        ([.createTaskRecord "pending", .startBackgroundProcessing], .ok "submitted")) ∧
    (generateAvatarVideo (some ⟨"t", 60, some "a.mp3"⟩) =
        ([.createTaskRecord "pending", .startBackgroundProcessing], .ok "submitted")) :=
  ⟨(generateAvatarVideo_duration_validation ⟨"t", 1, some "a.mp3"⟩ (by decide)).1
      (by decide),
   (generateAvatarVideo_duration_validation ⟨"t", 61, some "a.mp3"⟩ (by decide)).2.1
      (by decide),
   (generateAvatarVideo_duration_validation ⟨"t", 2, some "a.mp3"⟩ (by decide)).2.2
      (by decide) (by decide),
   (generateAvatarVideo_duration_validation ⟨"t", 60, some "a.mp3"⟩ (by decide)).2.2
      (by decide) (by decide)⟩

/-- A status is non-terminal when it is neither `completed` nor `failed`. -/
def nonTerminalHeyGen (s : HeyGenStatus) : Prop :=
  s ≠ .completed ∧ s ≠ .failed

/-- If every polled status up to the budget is non-terminal, the poll loop
throws the timeout error. -/
theorem pollVideoStatusGo_timeout (statuses : Nat → VideoStatusData)
    (maxAttempts : Nat) (attempt : Nat)
    (hnt : ∀ n, n < maxAttempts → nonTerminalHeyGen (statuses n).status) :
    pollVideoStatusGo statuses maxAttempts attempt =
      .error (pollTimeoutMessage maxAttempts) := by
  by_cases hlt : attempt < maxAttempts
  · rw [pollVideoStatusGo, dif_pos hlt]
    obtain ⟨h1, h2⟩ := hnt attempt hlt
    have := pollVideoStatusGo_timeout statuses maxAttempts (attempt + 1) hnt
    cases hs : (statuses attempt).status with
    | completed => exact absurd hs h1
    | failed => exact absurd hs h2
    | pending => simpa [hs] using this
    | waiting => simpa [hs] using this
    | processing => simpa [hs] using this
  · rw [pollVideoStatusGo, dif_neg hlt]
  termination_by maxAttempts - attempt

/-- Claim C5: If polling the avatar-video engine returns a non-terminal status
(e.g. `processing`) on every one of the 60 allowed attempts, the
AvatarVideoTask ends `failed` carrying the timeout error message — a message
distinct from the provider-failure default and produced only by
attempt-budget exhaustion — and is never marked `completed`. -/
theorem avatarVideoTask_timeout (videoId : String)
    (statuses : Nat → VideoStatusData) (init : AvatarTaskRecord)
    (hnt : ∀ n, n < 60 → nonTerminalHeyGen (statuses n).status) :
    pollVideoStatus statuses 60 = .error (pollTimeoutMessage 60) ∧
      (processAvatarVideoGeneration (.ok videoId) statuses init).status = "failed" ∧
      (processAvatarVideoGeneration (.ok videoId) statuses init).errorMessage =
        some (pollTimeoutMessage 60) ∧
      (processAvatarVideoGeneration (.ok videoId) statuses init).status ≠ "completed" ∧
      pollTimeoutMessage 60 ≠ "Video generation failed" := by
  have hpoll : pollVideoStatus statuses 60 = .error (pollTimeoutMessage 60) :=
    pollVideoStatusGo_timeout statuses 60 0 hnt
  refine ⟨hpoll, ?_, ?_, ?_, by decide⟩
  · simp [processAvatarVideoGeneration, hpoll]
  · simp [processAvatarVideoGeneration, hpoll]
  · simp [processAvatarVideoGeneration, hpoll]

/-- Witness for `avatarVideoTask_timeout`: every attempt reports
`processing`. -/
theorem avatarVideoTask_timeout_witness :
    pollVideoStatus (fun _ => ⟨.processing, none, none, none, none⟩) 60 =
        .error (pollTimeoutMessage 60) ∧
      (processAvatarVideoGeneration (.ok "vid-1")
          (fun _ => ⟨.processing, none, none, none, none⟩)
          ⟨"pending", none, none, none, none, none, none⟩).status = "failed" ∧
      (processAvatarVideoGeneration (.ok "vid-1")
          (fun _ => ⟨.processing, none, none, none, none⟩)
          ⟨"pending", none, none, none, none, none, none⟩).errorMessage =
        some (pollTimeoutMessage 60) ∧
      (processAvatarVideoGeneration (.ok "vid-1")
          (fun _ => ⟨.processing, none, none, none, none⟩)
          ⟨"pending", none, none, none, none, none, none⟩).status ≠ "completed" ∧
      pollTimeoutMessage 60 ≠ "Video generation failed" :=
  avatarVideoTask_timeout "vid-1" (fun _ => ⟨.processing, none, none, none, none⟩)
    ⟨"pending", none, none, none, none, none, none⟩
    (by intro n hn; refine ⟨?_, ?_⟩ <;> simp)

/-! ## Audio merge (`services/audioMergeService.ts`) -/

/-- An input to `mergeAudioSegments`: an audio URL and an optional local
path.  JS truthiness: an empty string is falsy, so `url = ""` means "no
url" and a present-but-empty `localPath` behaves like an absent one. -/
structure AudioSegment where
  url : String
  localPath : Option String
  deriving Repr, DecidableEq

/-- JS truthiness of an optional string (`undefined` and `""` are falsy). -/
def optTruthy : Option String → Bool
  | none => false
  | some s => !(s == "")

/-- The filter `(s) => s.url || s.localPath`. -/
def isValidSegment (s : AudioSegment) : Bool :=
  !(s.url == "") || optTruthy s.localPath

/-- File-system effects of one merge run, in program order.  `runConcat`
records the FFmpeg concat invocation. -/
inductive FsEvent where
  | createFile (path : String)
  | deleteFile (path : String)
  | runConcat (listFile : String) (output : String)
  deriving Repr, DecidableEq

/-- Environment of one merge run: the ephemeral names the run would generate
(`/tmp/merge_…`, `/tmp/concat_…`, `/tmp/merged_…` — opaque random names in
the source, numbered here by download-call order) and which external steps
succeed. -/
structure MergeEnv where
  tempName : Nat → String
  concatName : String
  outputName : String
  downloadOk : Nat → Bool
  concatOk : Bool

/-- `downloadAudio` (`audioMergeService.ts`): pick a fresh temp path and
fetch into it; on fetch failure unlink the (partial) temp file and throw.
`k` is the index of this download call within the run. -/
def downloadAudio (env : MergeEnv) (k : Nat) :
    List FsEvent × Except String String :=
  if env.downloadOk k then
    ([.createFile (env.tempName k)], .ok (env.tempName k))
  else
    ([.deleteFile (env.tempName k)], .error "Failed to download audio")

/-- The download loop of the merge path: materialize each valid segment to a
local path (reusing a caller-supplied `localPath`, otherwise downloading).
Returns the file-system events, the `(segment, localPath)` pairs accumulated
so far (the source's `validSegments[i]` / `localPaths[i]` alignment), and
the error of the first failing download, if any. -/
def materializeAll (env : MergeEnv) :
    List AudioSegment → Nat →
      List FsEvent × List (AudioSegment × String) × Option String
  | [], _ => ([], [], none)
  | s :: rest, k =>
    if optTruthy s.localPath then
      let (evs, pairs, err) := materializeAll env rest k
      (evs, (s, s.localPath.getD "") :: pairs, err)
    else
      match downloadAudio env k with
      | (evs, .ok p) =>
        let (evs2, pairs, err) := materializeAll env rest (k + 1)
        (evs ++ evs2, (s, p) :: pairs, err)
      | (evs, .error e) => (evs, [], some e)

/-- The path a pair contributes to cleanup: only files the merge itself
downloaded (`!segment.localPath`), never caller-owned local paths. -/
def downloadedPath (sp : AudioSegment × String) : Option String :=
  if optTruthy sp.1.localPath then none else some sp.2

/-- The `finally` block of `mergeAudioSegments`: unlink every file the run
downloaded, skipping caller-owned `localPath` inputs. -/
def cleanupEvents (pairs : List (AudioSegment × String)) : List FsEvent :=
  (pairs.filterMap downloadedPath).map FsEvent.deleteFile

/-- The body of `mergeAudioSegments` after the `validSegments` filter:
`[]` and singleton short-circuits, then the download + FFmpeg-concat path.
On concat success the concat list file is unlinked and the output returned;
on any failure inside the `try` the error is wrapped; the `finally` cleanup
runs on every path of the multi-segment branch. -/
def mergeValid (env : MergeEnv) :
    List AudioSegment → List FsEvent × Except String String
  | [] => ([], .error "No valid audio segments to merge")
  | [s] =>
    if optTruthy s.localPath then ([], .ok (s.localPath.getD ""))
    else downloadAudio env 0
  | s₁ :: s₂ :: rest =>
    let (dlEvs, pairs, dlErr) := materializeAll env (s₁ :: s₂ :: rest) 0
    let cleanup := cleanupEvents pairs
    match dlErr with
    | some e => (dlEvs ++ cleanup, .error ("Failed to merge audio: " ++ e))
    | none =>
      let evs1 := dlEvs ++ [FsEvent.createFile env.concatName,
                            FsEvent.runConcat env.concatName env.outputName]
      if env.concatOk then
        (evs1 ++ [FsEvent.createFile env.outputName,
                  FsEvent.deleteFile env.concatName] ++ cleanup,
         .ok env.outputName)
      else
        (evs1 ++ cleanup, .error "Failed to merge audio: FFmpeg concat failed")

/-- `mergeAudioSegments` (`audioMergeService.ts`): reject an empty input
list, filter out falsy segments, then run `mergeValid`. -/
def mergeAudioSegments (env : MergeEnv) (segments : List AudioSegment) :
    List FsEvent × Except String String :=
  if segments.isEmpty then ([], .error "No audio segments to merge")
  else mergeValid env (segments.filter isValidSegment)

end Podesign

namespace Podesign

/-! ## Theorems for claims C8 and C6 -/

/-- Claim C8: When the filter leaves exactly one non-empty input, merge
short-circuits: a caller-owned `localPath` is returned as-is with no
file-system effect at all, and a URL-only input is downloaded and returned;
in both cases the FFmpeg concatenation step is never invoked (no
re-encoding). -/
theorem merge_single_input_short_circuit (env : MergeEnv)
    (segments : List AudioSegment) (s : AudioSegment)
    (hfilter : segments.filter isValidSegment = [s]) :
    (optTruthy s.localPath = true →
      mergeAudioSegments env segments = ([], .ok (s.localPath.getD ""))) ∧
    (optTruthy s.localPath = false → env.downloadOk 0 = true →
      mergeAudioSegments env segments =
        ([FsEvent.createFile (env.tempName 0)], .ok (env.tempName 0))) ∧
    (∀ lf out, FsEvent.runConcat lf out ∉ (mergeAudioSegments env segments).1) := by
  have hne : segments.isEmpty = false := by
    cases segments with
    | nil => simp at hfilter
    | cons a t => rfl
  have hmerge : mergeAudioSegments env segments = mergeValid env [s] := by
    rw [mergeAudioSegments, hne, hfilter]
    rfl
  refine ⟨?_, ?_, ?_⟩
  · intro ht
    rw [hmerge]
    simp [mergeValid, ht]
  · intro hf hd
    rw [hmerge]
    simp [mergeValid, hf, downloadAudio, hd]
  · intro lf out
    rw [hmerge]
    by_cases ht : optTruthy s.localPath
    · simp [mergeValid, ht]
    · by_cases hd : env.downloadOk 0 <;>
        simp [mergeValid, ht, downloadAudio, hd]

/-- Witness for `merge_single_input_short_circuit`: a single caller-owned
input is returned untouched. -/
theorem merge_single_input_short_circuit_witness :
    mergeAudioSegments
        ⟨fun k => "dl" ++ toString k, "concat.txt", "out.mp3", fun _ => true, true⟩
        [⟨"http://a.mp3", some "/tmp/owned.mp3"⟩] =
      ([], .ok "/tmp/owned.mp3") :=
  (merge_single_input_short_circuit
      ⟨fun k => "dl" ++ toString k, "concat.txt", "out.mp3", fun _ => true, true⟩
      [⟨"http://a.mp3", some "/tmp/owned.mp3"⟩]
      ⟨"http://a.mp3", some "/tmp/owned.mp3"⟩ (by decide)).1 (by decide)

/-- Claim C6 counterexample: Two URL-only inputs, both downloads succeed, the
FFmpeg concat step throws: the error propagates and both downloaded temp
files are deleted, but the concat list file the merge created is *not*
deleted — contradicting "every ephemeral file the merge itself created
(downloaded audio temp files and the concat list file) is deleted before the
error propagates". -/
theorem merge_concat_failure_leaks_concat_file :
    (mergeAudioSegments
        ⟨fun k => "dl" ++ toString k, "concat.txt", "out.mp3", fun _ => true, false⟩
        [⟨"http://a.mp3", none⟩, ⟨"http://b.mp3", none⟩]) =
      ([FsEvent.createFile "dl0", FsEvent.createFile "dl1",
        FsEvent.createFile "concat.txt", FsEvent.runConcat "concat.txt" "out.mp3",
        FsEvent.deleteFile "dl0", FsEvent.deleteFile "dl1"],
       .error "Failed to merge audio: FFmpeg concat failed") ∧
    FsEvent.createFile "concat.txt" ∈
      (mergeAudioSegments
        ⟨fun k => "dl" ++ toString k, "concat.txt", "out.mp3", fun _ => true, false⟩
        [⟨"http://a.mp3", none⟩, ⟨"http://b.mp3", none⟩]).1 ∧
    FsEvent.deleteFile "concat.txt" ∉
      (mergeAudioSegments
        ⟨fun k => "dl" ++ toString k, "concat.txt", "out.mp3", fun _ => true, false⟩
        [⟨"http://a.mp3", none⟩, ⟨"http://b.mp3", none⟩]).1 := by
  refine ⟨rfl, ?_, ?_⟩ <;> decide

/-- The path of a `createFile` event. -/
def createdPath : FsEvent → Option String
  | .createFile p => some p
  | _ => none

/-- Unfolding `materializeAll` on a caller-owned head segment. -/
theorem materializeAll_cons_owned (env : MergeEnv) (s : AudioSegment)
    (rest : List AudioSegment) (k : Nat) (ht : optTruthy s.localPath = true) :
    materializeAll env (s :: rest) k =
      ((materializeAll env rest k).1,
       (s, s.localPath.getD "") :: (materializeAll env rest k).2.1,
       (materializeAll env rest k).2.2) := by
  rcases hrec : materializeAll env rest k with ⟨evs, pairs, err⟩
  simp [materializeAll, ht, hrec]

/-- Unfolding `materializeAll` on a URL-only head whose download succeeds. -/
theorem materializeAll_cons_dl_ok (env : MergeEnv) (s : AudioSegment)
    (rest : List AudioSegment) (k : Nat) (ht : optTruthy s.localPath = false)
    (hd : env.downloadOk k = true) :
    materializeAll env (s :: rest) k =
      (FsEvent.createFile (env.tempName k) :: (materializeAll env rest (k + 1)).1,
       (s, env.tempName k) :: (materializeAll env rest (k + 1)).2.1,
       (materializeAll env rest (k + 1)).2.2) := by
  rcases hrec : materializeAll env rest (k + 1) with ⟨evs, pairs, err⟩
  simp [materializeAll, ht, downloadAudio, hd, hrec]

/-- Unfolding `materializeAll` on a URL-only head whose download fails. -/
theorem materializeAll_cons_dl_fail (env : MergeEnv) (s : AudioSegment)
    (rest : List AudioSegment) (k : Nat) (ht : optTruthy s.localPath = false)
    (hd : env.downloadOk k = false) :
    materializeAll env (s :: rest) k =
      ([FsEvent.deleteFile (env.tempName k)], [],
       some "Failed to download audio") := by
  simp [materializeAll, ht, downloadAudio, hd]

/-- The files the download loop creates are exactly the files its cleanup
list will delete (caller-owned paths appear in neither). -/
theorem materializeAll_created_eq_downloaded (env : MergeEnv) :
    ∀ (segs : List AudioSegment) (k : Nat),
      (materializeAll env segs k).1.filterMap createdPath =
        ((materializeAll env segs k).2.1).filterMap downloadedPath := by
  intro segs
  induction segs with
  | nil => intro k; rfl
  | cons s rest ih =>
    intro k
    cases ht : optTruthy s.localPath with
    | true =>
      rw [materializeAll_cons_owned env s rest k ht]
      simp [List.filterMap_cons, downloadedPath, ht, ih k]
    | false =>
      cases hd : env.downloadOk k with
      | true =>
        rw [materializeAll_cons_dl_ok env s rest k ht hd]
        simp [List.filterMap_cons, createdPath, downloadedPath, ht, ih (k + 1)]
      | false =>
        rw [materializeAll_cons_dl_fail env s rest k ht hd]
        simp [createdPath]

/-- Every `deleteFile` event emitted by the download loop targets one of the
run's own temp names. -/
theorem materializeAll_delete_tempName (env : MergeEnv) :
    ∀ (segs : List AudioSegment) (k : Nat) (p : String),
      FsEvent.deleteFile p ∈ (materializeAll env segs k).1 →
        ∃ j, p = env.tempName j := by
  intro segs
  induction segs with
  | nil => intro k p hp; simp [materializeAll] at hp
  | cons s rest ih =>
    intro k p hp
    cases ht : optTruthy s.localPath with
    | true =>
      rw [materializeAll_cons_owned env s rest k ht] at hp
      exact ih k p hp
    | false =>
      cases hd : env.downloadOk k with
      | true =>
        rw [materializeAll_cons_dl_ok env s rest k ht hd] at hp
        rcases List.mem_cons.mp hp with hp | hp
        · exact absurd hp (by simp)
        · exact ih (k + 1) p hp
      | false =>
        rw [materializeAll_cons_dl_fail env s rest k ht hd] at hp
        rcases List.mem_singleton.mp hp with hp
        exact ⟨k, (FsEvent.deleteFile.injEq p (env.tempName k)).mp hp⟩

/-- Every path in the cleanup list of the download loop is one of the run's
own temp names. -/
theorem materializeAll_downloaded_tempName (env : MergeEnv) :
    ∀ (segs : List AudioSegment) (k : Nat) (p : String),
      p ∈ ((materializeAll env segs k).2.1).filterMap downloadedPath →
        ∃ j, p = env.tempName j := by
  intro segs
  induction segs with
  | nil => intro k p hp; simp [materializeAll] at hp
  | cons s rest ih =>
    intro k p hp
    cases ht : optTruthy s.localPath with
    | true =>
      rw [materializeAll_cons_owned env s rest k ht] at hp
      rw [List.filterMap_cons] at hp
      simp only [downloadedPath, ht, if_true] at hp
      exact ih k p hp
    | false =>
      cases hd : env.downloadOk k with
      | true =>
        rw [materializeAll_cons_dl_ok env s rest k ht hd] at hp
        rw [List.filterMap_cons] at hp
        simp only [downloadedPath, ht, Bool.false_eq_true, if_false,
          List.mem_cons] at hp
        rcases hp with hp | hp
        · exact ⟨k, hp⟩
        · exact ih (k + 1) p hp
      | false =>
        rw [materializeAll_cons_dl_fail env s rest k ht hd] at hp
        simp at hp

/-- Analysis of a merge trace of the shape
`downloadEvents ++ (middle ++ cleanup)`: every download-created file has a
matching delete in the cleanup, every deleted file is a run temp or (via the
middle section) the concat list file, and when the middle section deletes
nothing, every deleted file is a run temp. -/
theorem mergeTrace_cleanup (env : MergeEnv) (dlEvs : List FsEvent)
    (pairs : List (AudioSegment × String)) (mid : List FsEvent)
    (hM1 : dlEvs.filterMap createdPath = pairs.filterMap downloadedPath)
    (hM2 : ∀ p, FsEvent.deleteFile p ∈ dlEvs → ∃ j, p = env.tempName j)
    (hM3 : ∀ p, p ∈ pairs.filterMap downloadedPath → ∃ j, p = env.tempName j)
    (hmidC : ∀ p, FsEvent.createFile p ∈ mid →
        p = env.concatName ∨ p = env.outputName)
    (hmidD : ∀ p, FsEvent.deleteFile p ∈ mid → p = env.concatName) :
    (∀ p, FsEvent.createFile p ∈ dlEvs ++ (mid ++ cleanupEvents pairs) →
        p ≠ env.concatName → p ≠ env.outputName →
        FsEvent.deleteFile p ∈ dlEvs ++ (mid ++ cleanupEvents pairs)) ∧
    (∀ p, FsEvent.deleteFile p ∈ dlEvs ++ (mid ++ cleanupEvents pairs) →
        (∃ j, p = env.tempName j) ∨ p = env.concatName) ∧
    ((∀ p, FsEvent.deleteFile p ∉ mid) →
      ∀ p, FsEvent.deleteFile p ∈ dlEvs ++ (mid ++ cleanupEvents pairs) →
        ∃ j, p = env.tempName j) := by
  have hcl : ∀ p, FsEvent.deleteFile p ∈ cleanupEvents pairs →
      ∃ j, p = env.tempName j := by
    intro p hp
    rcases List.mem_map.mp hp with ⟨q, hq, hqe⟩
    have hqp : q = p := (FsEvent.deleteFile.injEq q p).mp hqe
    exact hqp ▸ hM3 q hq
  have hclC : ∀ p, FsEvent.createFile p ∉ cleanupEvents pairs := by
    intro p hp
    rcases List.mem_map.mp hp with ⟨q, _, hqe⟩
    exact absurd hqe (by simp)
  refine ⟨?_, ?_, ?_⟩
  · intro p hp hpc hpo
    rcases List.mem_append.mp hp with hp | hp
    · have hmem : p ∈ dlEvs.filterMap createdPath :=
        List.mem_filterMap.mpr ⟨FsEvent.createFile p, hp, rfl⟩
      rw [hM1] at hmem
      have hdel : FsEvent.deleteFile p ∈ cleanupEvents pairs :=
        List.mem_map.mpr ⟨p, hmem, rfl⟩
      exact List.mem_append.mpr (Or.inr (List.mem_append.mpr (Or.inr hdel)))
    · rcases List.mem_append.mp hp with hp | hp
      · rcases hmidC p hp with h | h
        · exact absurd h hpc
        · exact absurd h hpo
      · exact absurd hp (hclC p)
  · intro p hp
    rcases List.mem_append.mp hp with hp | hp
    · exact Or.inl (hM2 p hp)
    · rcases List.mem_append.mp hp with hp | hp
      · exact Or.inr (hmidD p hp)
      · exact Or.inl (hcl p hp)
  · intro hnodel p hp
    rcases List.mem_append.mp hp with hp | hp
    · exact hM2 p hp
    · rcases List.mem_append.mp hp with hp | hp
      · exact absurd hp (hnodel p)
      · exact hcl p hp

/-- Claim C6 amended: On the multi-segment (concatenation) path of the merge,
on success and failure alike: (1) every audio temp file the merge itself
downloaded is deleted again before returning; (2) every deleted path is one
of the run's own temp names or the concat list file, so (3) a caller-owned
`localPath` (distinct from the run's generated names) is never deleted; but
(4) when the FFmpeg concatenation step throws, the concat list file the
merge created is *not* deleted — it is unlinked only on the success path. -/
theorem merge_cleanup_discipline (env : MergeEnv)
    (segments : List AudioSegment) (s₁ s₂ : AudioSegment)
    (rest : List AudioSegment)
    (hfilter : segments.filter isValidSegment = s₁ :: s₂ :: rest) :
    (∀ p, FsEvent.createFile p ∈ (mergeAudioSegments env segments).1 →
        p ≠ env.concatName → p ≠ env.outputName →
        FsEvent.deleteFile p ∈ (mergeAudioSegments env segments).1) ∧
    (∀ p, FsEvent.deleteFile p ∈ (mergeAudioSegments env segments).1 →
        (∃ j, p = env.tempName j) ∨ p = env.concatName) ∧
    (∀ seg, seg ∈ segments → ∀ q, seg.localPath = some q →
        (∀ j, q ≠ env.tempName j) → q ≠ env.concatName →
        FsEvent.deleteFile q ∉ (mergeAudioSegments env segments).1) ∧
    (env.concatOk = false → (∀ j, env.concatName ≠ env.tempName j) →
        FsEvent.deleteFile env.concatName ∉ (mergeAudioSegments env segments).1) := by
  have hne : segments.isEmpty = false := by
    cases segments with
    | nil => simp at hfilter
    | cons a t => rfl
  have hmerge : mergeAudioSegments env segments = mergeValid env (s₁ :: s₂ :: rest) := by
    simp only [mergeAudioSegments, hne, Bool.false_eq_true, if_false, hfilter]
  rcases hm : materializeAll env (s₁ :: s₂ :: rest) 0 with ⟨dlEvs, pairs, dlErr⟩
  have hM1 : dlEvs.filterMap createdPath = pairs.filterMap downloadedPath := by
    have h := materializeAll_created_eq_downloaded env (s₁ :: s₂ :: rest) 0
    rw [hm] at h
    exact h
  have hM2 : ∀ p, FsEvent.deleteFile p ∈ dlEvs → ∃ j, p = env.tempName j := by
    intro p hp
    exact materializeAll_delete_tempName env (s₁ :: s₂ :: rest) 0 p
      (by rw [hm]; exact hp)
  have hM3 : ∀ p, p ∈ pairs.filterMap downloadedPath → ∃ j, p = env.tempName j := by
    intro p hp
    exact materializeAll_downloaded_tempName env (s₁ :: s₂ :: rest) 0 p
      (by rw [hm]; exact hp)
  cases dlErr with
  | some e =>
    have htrace : (mergeAudioSegments env segments).1 =
        dlEvs ++ ([] ++ cleanupEvents pairs) := by
      rw [hmerge]
      simp [mergeValid, hm]
    obtain ⟨h1, h2, h3⟩ := mergeTrace_cleanup env dlEvs pairs []
      hM1 hM2 hM3 (by intro p hp; simp at hp) (by intro p hp; simp at hp)
    rw [htrace]
    refine ⟨h1, h2, ?_, ?_⟩
    · intro seg _ q _ hfresh hfc hmem
      rcases h2 q hmem with ⟨j, hj⟩ | hc
      · exact hfresh j hj
      · exact hfc hc
    · intro _ hfreshC hmem
      rcases h3 (by intro p hp; simp at hp) env.concatName hmem with ⟨j, hj⟩
      exact hfreshC j hj
  | none =>
    cases hck : env.concatOk with
    | false =>
      have htrace : (mergeAudioSegments env segments).1 =
          dlEvs ++ ([FsEvent.createFile env.concatName,
            FsEvent.runConcat env.concatName env.outputName] ++
            cleanupEvents pairs) := by
        rw [hmerge]
        simp [mergeValid, hm, hck, List.append_assoc]
      obtain ⟨h1, h2, h3⟩ := mergeTrace_cleanup env dlEvs pairs
        [FsEvent.createFile env.concatName,
         FsEvent.runConcat env.concatName env.outputName]
        hM1 hM2 hM3
        (by intro p hp; simp at hp; exact Or.inl hp)
        (by intro p hp; simp at hp)
      rw [htrace]
      refine ⟨h1, h2, ?_, ?_⟩
      · intro seg _ q _ hfresh hfc hmem
        rcases h2 q hmem with ⟨j, hj⟩ | hc
        · exact hfresh j hj
        · exact hfc hc
      · intro _ hfreshC hmem
        rcases h3 (by intro p hp; simp at hp) env.concatName hmem with ⟨j, hj⟩
        exact hfreshC j hj
    | true =>
      have htrace : (mergeAudioSegments env segments).1 =
          dlEvs ++ ([FsEvent.createFile env.concatName,
            FsEvent.runConcat env.concatName env.outputName,
            FsEvent.createFile env.outputName,
            FsEvent.deleteFile env.concatName] ++
            cleanupEvents pairs) := by
        rw [hmerge]
        simp [mergeValid, hm, hck, List.append_assoc]
      obtain ⟨h1, h2, h3⟩ := mergeTrace_cleanup env dlEvs pairs
        [FsEvent.createFile env.concatName,
         FsEvent.runConcat env.concatName env.outputName,
         FsEvent.createFile env.outputName,
         FsEvent.deleteFile env.concatName]
        hM1 hM2 hM3
        (by intro p hp; simp at hp; exact hp)
        (by intro p hp; simp at hp; exact hp)
      rw [htrace]
      refine ⟨h1, h2, ?_, ?_⟩
      · intro seg _ q _ hfresh hfc hmem
        rcases h2 q hmem with ⟨j, hj⟩ | hc
        · exact hfresh j hj
        · exact hfc hc
      · intro hco _ _
        exact absurd hco (by decide)

/-- Witness for `merge_cleanup_discipline`: two URL-only inputs, downloads
succeed, the concat step throws; the concat list file survives the run. -/
theorem merge_cleanup_discipline_witness :
    FsEvent.deleteFile "concat.txt" ∉
      (mergeAudioSegments
        ⟨fun _ => "dl", "concat.txt", "out.mp3", fun _ => true, false⟩
        [⟨"http://a.mp3", none⟩, ⟨"http://b.mp3", none⟩]).1 :=
  (merge_cleanup_discipline
      ⟨fun _ => "dl", "concat.txt", "out.mp3", fun _ => true, false⟩
      [⟨"http://a.mp3", none⟩, ⟨"http://b.mp3", none⟩]
      ⟨"http://a.mp3", none⟩ ⟨"http://b.mp3", none⟩ [] (by decide)).2.2.2
    rfl (by intro j h; simp at h)

/-! ## External-call retry/fallback discipline (`_core/llm.ts` `invokeLLM`,
`_core/voiceTranscription.ts` `transcribeAudio`) -/

/-- Substring search over character lists (JS
`String.prototype.includes`). -/
def charListContains (needle : List Char) : List Char → Bool
  | [] => needle.isEmpty
  | c :: t => needle.isPrefixOf (c :: t) || charListContains needle t

/-- `hay.includes(needle)`. -/
def strContains (hay needle : String) : Bool :=
  charListContains needle.data hay.data

/-- The only error class on which `invokeLLM`'s model loop advances to the
next candidate (`error.message` includes `"404"`, `"not found"` or
`"NOT_FOUND"`); every other error is rethrown immediately. -/
def isModelNotFoundError (msg : String) : Bool :=
  strContains msg "404" || strContains msg "not found" || strContains msg "NOT_FOUND"

/-- Outcome of one `model.generateContent` call. -/
inductive LLMAttemptResult where
  | success (text : String)
  | failure (errMsg : String)
  deriving Repr, DecidableEq

/-- The ordered model candidates of `invokeLLM`. -/
def geminiModelNames : List String :=
  ["gemini-2.0-flash-exp", "gemini-2.0-flash", "gemini-1.5-pro-latest"]

/-- The `for (const modelName of modelNames)` loop of `invokeLLM`: on
success return the text; on a 404-class failure remember it as `lastError`
and try the next model; on any other failure rethrow immediately; when all
models are exhausted throw the aggregated failure. -/
def tryModels (attempt : String → LLMAttemptResult) (lastErr : Option String) :
    List String → Except String String
  | [] =>
    .error ("LLM invoke failed: All models failed. Last error: " ++
      lastErr.getD "undefined" ++
      ". Please check GOOGLE_GEMINI_API_KEY is correctly set in Railway.")
  | m :: rest =>
    match attempt m with
    | .success t => .ok t
    | .failure e =>
      if isModelNotFoundError e then tryModels attempt (some e) rest
      else .error e

/-- `invokeLLM`'s model-selection control flow, with `attempt m` the outcome
of calling model `m`. -/
def invokeLLM (attempt : String → LLMAttemptResult) : Except String String :=
  tryModels attempt none geminiModelNames

/-- An error thrown by the Whisper API call, as the retry loop inspects it:
`msg` is `error.message`, `code` is `error.code || error.type`, `typeSystem`
is `error.type === 'system'`, `causeCode` is `error.cause?.code`. -/
structure ApiError where
  msg : String
  code : String
  typeSystem : Bool
  causeCode : Option String
  deriving Repr, DecidableEq

/-- `transcribeAudio`'s retryable-error test (timeout / connection reset /
DNS failure / connection refused, by code, message, system type or cause
code). -/
def isRetryableWhisperError (e : ApiError) : Bool :=
  e.code == "ECONNRESET" || e.code == "ETIMEDOUT" || e.code == "ENOTFOUND" ||
  e.code == "ECONNREFUSED" ||
  strContains e.msg "Connection error" || strContains e.msg "timeout" ||
  strContains e.msg "ECONNRESET" || strContains e.msg "ETIMEDOUT" ||
  e.typeSystem ||
  e.causeCode == some "ECONNRESET" || e.causeCode == some "ETIMEDOUT"

/-- `transcribeAudio`'s stop-retrying test: authentication and rate-limit
errors (message includes `"API key"`, `"authentication"`, `"rate limit"`,
`"401"` or `"429"`) exit the retry loop at once. -/
def isWhisperAbortError (e : ApiError) : Bool :=
  strContains e.msg "API key" || strContains e.msg "authentication" ||
  strContains e.msg "rate limit" || strContains e.msg "401" ||
  strContains e.msg "429"

/-- `maxRetries = 5` in `transcribeAudio`. -/
def whisperMaxRetries : Nat := 5

/-- Result of the Whisper retry loop: the transcription if one attempt
succeeded, the last error otherwise, and the number of attempts
performed. -/
structure WhisperLoopResult where
  transcription : Option String
  lastError : Option ApiError
  attemptsUsed : Nat
  deriving Repr, DecidableEq

/-- The `for (let attempt = 1; attempt <= maxRetries; attempt++)` loop of
`transcribeAudio`: success breaks with the transcription; an abort-class
error breaks at once; a non-retryable error or the final attempt breaks;
otherwise the loop sleeps (exponential backoff with jitter, base 2 s,
cap 15 s) and tries again. -/
def whisperRetryGo (results : Nat → Except ApiError String) :
    Nat → WhisperLoopResult
  | attempt =>
    if _h : attempt ≤ whisperMaxRetries then
      match results attempt with
      | .ok t => ⟨some t, none, attempt⟩
      | .error e =>
        if isWhisperAbortError e then ⟨none, some e, attempt⟩
        else if attempt == whisperMaxRetries || !isRetryableWhisperError e then
          ⟨none, some e, attempt⟩
        else whisperRetryGo results (attempt + 1)
    else ⟨none, none, attempt - 1⟩
  termination_by attempt => whisperMaxRetries + 1 - attempt

/-- The Whisper retry loop starting at attempt 1. -/
def whisperRetryLoop (results : Nat → Except ApiError String) :
    WhisperLoopResult :=
  whisperRetryGo results 1

end Podesign

namespace Podesign

/-! ## Theorems for claim C7 -/

/-- Claim C7 counterexample: A quota/rate-limit failure (429) on the first
model candidate does *not* advance `invokeLLM` to the next candidate: the
error is rethrown immediately and the whole operation aborts, even though
the next candidate would have succeeded. -/
theorem invokeLLM_429_aborts :
    invokeLLM (fun m =>
        if m == "gemini-2.0-flash-exp" then
          .failure "429 Too Many Requests: quota exceeded"
        else .success "ok") =
      .error "429 Too Many Requests: quota exceeded" ∧
    (fun m : String =>
        if m == "gemini-2.0-flash-exp" then
          LLMAttemptResult.failure "429 Too Many Requests: quota exceeded"
        else .success "ok") "gemini-2.0-flash" = .success "ok" := by
  constructor
  · rfl
  · rfl

/-- Claim C7 amended: The retry/fallback discipline actually implemented:
in `invokeLLM`, only 404/not-found failures advance to the next model
candidate, and *every* other failure — including 429 quota errors and
401/403 credential errors — aborts the whole operation immediately without
fallback and without retries; in `transcribeAudio`, abort-class errors
(API key / authentication / rate limit / 401 / 429) stop the retry loop on
the failing attempt with no transcription, retryable network errors
(timeout, reset, DNS failure, refused) consume one attempt and continue
(with exponential backoff between attempts), and non-retryable other errors
stop on the failing attempt. -/
theorem retry_fallback_discipline (attempt : String → LLMAttemptResult)
    (e : String) (results : Nat → Except ApiError String) (err : ApiError) :
    (attempt "gemini-2.0-flash-exp" = .failure e →
      isModelNotFoundError e = false → invokeLLM attempt = .error e) ∧
    (attempt "gemini-2.0-flash-exp" = .failure e →
      isModelNotFoundError e = true →
      invokeLLM attempt =
        tryModels attempt (some e) ["gemini-2.0-flash", "gemini-1.5-pro-latest"]) ∧
    (results 1 = .error err → isWhisperAbortError err = true →
      whisperRetryLoop results = ⟨none, some err, 1⟩) ∧
    (∀ n, 1 ≤ n → n < whisperMaxRetries → results n = .error err →
      isWhisperAbortError err = false → isRetryableWhisperError err = true →
      whisperRetryGo results n = whisperRetryGo results (n + 1)) ∧
    (∀ n, 1 ≤ n → n ≤ whisperMaxRetries → results n = .error err →
      isWhisperAbortError err = false → isRetryableWhisperError err = false →
      whisperRetryGo results n = ⟨none, some err, n⟩) := by
  refine ⟨?_, ?_, ?_, ?_, ?_⟩
  · intro ha hnf
    simp only [invokeLLM, geminiModelNames, tryModels, ha, hnf,
      Bool.false_eq_true, if_false]
  · intro ha hnf
    simp only [invokeLLM, geminiModelNames, tryModels, ha, hnf, if_true]
  · intro hr hab
    rw [whisperRetryLoop, whisperRetryGo]
    simp only [whisperMaxRetries]
    rw [dif_pos (by omega), hr]
    simp [hab]
  · intro n h1 h5 hr hab hret
    rw [whisperRetryGo]
    rw [dif_pos (by omega), hr]
    simp only [hab, Bool.false_eq_true, if_false]
    have hne : (n == whisperMaxRetries) = false := by
      simp only [beq_eq_false_iff_ne, ne_eq]
      omega
    simp [hne, hret]
  · intro n h1 h5 hr hab hret
    rw [whisperRetryGo]
    rw [dif_pos (by omega), hr]
    simp [hab, hret]

/-- Witness for `retry_fallback_discipline`: a 401 error aborts `invokeLLM`
on the first candidate, and a 429 rate-limit error stops the Whisper retry
loop after a single attempt. -/
theorem retry_fallback_discipline_witness :
    invokeLLM (fun _ => .failure "401 Unauthorized: invalid API key") =
      .error "401 Unauthorized: invalid API key" ∧
    whisperRetryLoop (fun _ => .error ⟨"429 rate limit exceeded", "", false, none⟩) =
      ⟨none, some ⟨"429 rate limit exceeded", "", false, none⟩, 1⟩ :=
  ⟨(retry_fallback_discipline (fun _ => .failure "401 Unauthorized: invalid API key")
      "401 Unauthorized: invalid API key"
      (fun _ => .error ⟨"429 rate limit exceeded", "", false, none⟩)
      ⟨"429 rate limit exceeded", "", false, none⟩).1 rfl (by decide),
   (retry_fallback_discipline (fun _ => .failure "401 Unauthorized: invalid API key")
      "401 Unauthorized: invalid API key"
      (fun _ => .error ⟨"429 rate limit exceeded", "", false, none⟩)
      ⟨"429 rate limit exceeded", "", false, none⟩).2.2.1 rfl (by decide)⟩

/-! ## Task state machine (`podcast.create`, `processPodcastTask`) -/

/-- Task status values (`routers.ts` / schema). -/
inductive TaskStatus where
  | pending | processing | completed | failed
  deriving Repr, DecidableEq

/-- The status a Task record is created with in `podcast.create`
(`createPodcastTask({ …, status: 'pending' })`). -/
def podcastCreateStatus : TaskStatus := .pending

/-- Observable actions of one `processPodcastTask` execution, in program
order: durable status writes (`updatePodcastTask`), progress snapshots
(`updateProgress`), and external stage work. -/
inductive PipelineAction where
  | writeStatus (s : TaskStatus)
  | progressUpdate (stage : String) (percent : Nat)
  | stageWork (name : String)
  deriving Repr, DecidableEq

/-- Environment of one `processPodcastTask` execution (YouTube input path):
whether the task lookup succeeds, whether each external stage succeeds, the
optional intro/outro texts, and the audio URLs the synthesis/merge steps
would produce. Intro and outro synthesis failures are caught locally in the
source (the episode is just dropped), and a merge failure falls back to the
main audio; only lookup, input processing and main synthesis failures reach
the outer catch. -/
structure PipelineEnv where
  taskFound : Bool
  inputOk : Bool
  introText : Option String
  outroText : Option String
  introOk : Bool
  mainOk : Bool
  outroOk : Bool
  mergeOk : Bool
  mainAudioUrl : String
  mergedAudioUrl : String

/-- Final Task-record fields written by the execution. -/
structure PodcastTaskFinal where
  status : TaskStatus
  podcastAudioUrl : Option String
  deriving Repr, DecidableEq

/-- `processPodcastTask` (`routers.ts`): the trace of durable writes and
stage work, and the final Task record, for one execution under `env`.
Follows the source's order: task lookup, status → `processing`, progress
`queued`, input processing (`analyzing` 20/60), optional intro synthesis
(`generating` 65, failure caught), main synthesis (`generating` 75, failure
escalates), optional outro synthesis (`generating` 85, failure caught),
optional merge (`generating` 90, failure caught, falls back to the main
audio), then `completed` at 100; the outer catch writes progress `failed`
and status `failed`. -/
def processPodcastTask (env : PipelineEnv) :
    List PipelineAction × PodcastTaskFinal :=
  if env.taskFound then
    let t0 : List PipelineAction :=
      [.writeStatus .processing, .progressUpdate "queued" 0,
       .progressUpdate "analyzing" 20, .stageWork "processInput"]
    if env.inputOk then
      let t1 := t0 ++ [.progressUpdate "analyzing" 60]
      let introActions : List PipelineAction :=
        match env.introText with
        | none => []
        | some _ => [.progressUpdate "generating" 65, .stageWork "introSynthesis"]
      let introUrl : Option String :=
        match env.introText with
        | none => none
        | some _ => if env.introOk then some "intro-audio" else none
      let t2 := t1 ++ introActions ++
        [.progressUpdate "generating" 75, .stageWork "mainSynthesis"]
      if env.mainOk then
        let outroActions : List PipelineAction :=
          match env.outroText with
          | none => []
          | some _ => [.progressUpdate "generating" 85, .stageWork "outroSynthesis"]
        let outroUrl : Option String :=
          match env.outroText with
          | none => none
          | some _ => if env.outroOk then some "outro-audio" else none
        let mergeNeeded := introUrl.isSome || outroUrl.isSome
        let mergeActions : List PipelineAction :=
          if mergeNeeded then
            [.progressUpdate "generating" 90, .stageWork "mergeAudio"]
          else []
        let finalAudioUrl :=
          if mergeNeeded && env.mergeOk then env.mergedAudioUrl
          else env.mainAudioUrl
        (t2 ++ outroActions ++ mergeActions ++
           [.progressUpdate "completed" 100, .writeStatus .completed],
         ⟨.completed, some finalAudioUrl⟩)
      else
        (t2 ++ [.progressUpdate "failed" 0, .writeStatus .failed],
         ⟨.failed, none⟩)
    else
      (t0 ++ [.progressUpdate "failed" 0, .writeStatus .failed],
       ⟨.failed, none⟩)
  else
    ([.progressUpdate "failed" 0, .writeStatus .failed], ⟨.failed, none⟩)

/-- Forward order of statuses: `pending → processing → {completed, failed}`. -/
def statusRank : TaskStatus → Nat
  | .pending => 0
  | .processing => 1
  | .completed => 2
  | .failed => 2

/-- Terminal statuses. -/
def isTerminalStatus : TaskStatus → Bool
  | .completed => true
  | .failed => true
  | _ => false

/-- The durable status writes of a trace, in order. -/
def statusWrites (tr : List PipelineAction) : List TaskStatus :=
  tr.filterMap fun a =>
    match a with
    | .writeStatus s => some s
    | _ => none

/-- Stage-work actions. -/
def isStageWork : PipelineAction → Bool
  | .stageWork _ => true
  | _ => false

end Podesign

namespace Podesign

/-! ## Theorems for claims C3 and C10 -/

/-- Claim C3: For every execution environment: starting from the `pending`
status written at creation, the durable status sequence advances strictly
forward through `pending → processing → {completed | failed}` (ranks
strictly increase, so no execution leaves a terminal status); the execution
writes exactly one terminal status, which is the task's final status; and no
stage work happens before the `processing` write. -/
theorem podcastTask_status_forward (env : PipelineEnv) :
    List.Chain' (fun a b => statusRank a < statusRank b)
      (podcastCreateStatus :: statusWrites (processPodcastTask env).1) ∧
    (statusWrites (processPodcastTask env).1).filter
        (fun s => isTerminalStatus s) = [(processPodcastTask env).2.status] ∧
    ((processPodcastTask env).1.takeWhile
        (fun a => a ≠ PipelineAction.writeStatus TaskStatus.processing)).all
      (fun a => !isStageWork a) = true := by
  obtain ⟨tf, io, it, ot, iok, mok, ook, mgk, mu, gu⟩ := env
  cases tf with
  | false =>
    simp [processPodcastTask, statusWrites, podcastCreateStatus, statusRank,
      isTerminalStatus, isStageWork, List.chain'_cons, List.filterMap_cons,
      List.filter_cons]
  | true =>
    cases io with
    | false =>
      simp [processPodcastTask, statusWrites, podcastCreateStatus, statusRank,
        isTerminalStatus, isStageWork, List.chain'_cons, List.filterMap_cons,
        List.filter_cons]
    | true =>
      cases mok with
      | false =>
        cases it <;> cases ot <;> cases iok <;>
          simp [processPodcastTask, statusWrites, podcastCreateStatus,
            statusRank, isTerminalStatus, isStageWork, List.chain'_cons,
            List.filterMap_cons, List.filter_cons]
      | true =>
        cases it <;> cases ot <;> cases iok <;> cases ook <;>
          simp [processPodcastTask, statusWrites, podcastCreateStatus,
            statusRank, isTerminalStatus, isStageWork, List.chain'_cons,
            List.filterMap_cons, List.filter_cons]

/-- Claim C10 counterexample: Intro synthesis throws while the main episode
and the outro succeed and the merge succeeds: the Task completes, but
`podcastAudioUrl` is the merged (main + outro) audio URL, *not* the main
episode's audio alone. -/
theorem podcastTask_intro_failure_not_main_audio :
    (processPodcastTask
        ⟨true, true, some "intro", some "outro", false, true, true, true,
         "main.mp3", "merged.mp3"⟩).2.status = TaskStatus.completed ∧
    (processPodcastTask
        ⟨true, true, some "intro", some "outro", false, true, true, true,
         "main.mp3", "merged.mp3"⟩).2.podcastAudioUrl = some "merged.mp3" ∧
    some "merged.mp3" ≠ some "main.mp3" := by
  refine ⟨rfl, rfl, by simp⟩

/-- Claim C10 amended: Whenever the main episode synthesis succeeds (and the
task was found and input processing succeeded), an intro-synthesis,
outro-synthesis or merge failure never fails the Task: it is marked
`completed`; when the merge step fails — and also when no optional narration
survived — `podcastAudioUrl` is the main episode's audio URL, but when one
optional narration fails while the other succeeded and the merge succeeds,
`podcastAudioUrl` is the merged audio of the surviving segments. -/
theorem podcastTask_partial_failure_fallback (env : PipelineEnv)
    (hf : env.taskFound = true) (hi : env.inputOk = true)
    (hm : env.mainOk = true) :
    (processPodcastTask env).2.status = TaskStatus.completed ∧
    (processPodcastTask env).2.podcastAudioUrl =
      some (if ((env.introText.isSome && env.introOk) ||
                (env.outroText.isSome && env.outroOk)) && env.mergeOk then
              env.mergedAudioUrl
            else env.mainAudioUrl) ∧
    (env.mergeOk = false →
      (processPodcastTask env).2.podcastAudioUrl = some env.mainAudioUrl) := by
  obtain ⟨tf, io, it, ot, iok, mok, ook, mgk, mu, gu⟩ := env
  simp only at hf hi hm
  subst hf hi hm
  cases it <;> cases ot <;> cases iok <;> cases ook <;> cases mgk <;>
    simp [processPodcastTask]

/-- Witness for `podcastTask_partial_failure_fallback`: merge fails, the
Task still completes with the main audio URL. -/
theorem podcastTask_partial_failure_fallback_witness :
    (processPodcastTask
        ⟨true, true, some "intro", none, true, true, true, false,
         "main.mp3", "merged.mp3"⟩).2.status = TaskStatus.completed ∧
    (processPodcastTask
        ⟨true, true, some "intro", none, true, true, true, false,
         "main.mp3", "merged.mp3"⟩).2.podcastAudioUrl =
      some (if ((some "intro" : Option String).isSome && true ||
                ((none : Option String).isSome && true)) && false then
              "merged.mp3"
            else "main.mp3") ∧
    (false = false →
      (processPodcastTask
          ⟨true, true, some "intro", none, true, true, true, false,
           "main.mp3", "merged.mp3"⟩).2.podcastAudioUrl = some "main.mp3") :=
  podcastTask_partial_failure_fallback
    ⟨true, true, some "intro", none, true, true, true, false,
     "main.mp3", "merged.mp3"⟩ rfl rfl rfl

/-! ## Highlight persistence (`podcast.generateHighlights`) -/

/-- The Task-record fields `podcast.generateHighlights` reads.
`podcastScripts` is the parsed JSON column (`none` when the column is
null). -/
structure PodcastTaskRecord where
  status : TaskStatus
  podcastAudioUrl : Option String
  audioUrl : Option String
  podcastScripts : Option (List PodcastScript)
  transcription : Option String
  summary : Option String
  deriving Repr, DecidableEq

/-- `task.podcastAudioUrl || task.audioUrl` (JS truthiness: empty strings
count as absent). -/
def taskAudioUrl (t : PodcastTaskRecord) : Option String :=
  if optTruthy t.podcastAudioUrl then t.podcastAudioUrl
  else if optTruthy t.audioUrl then t.audioUrl
  else none

/-- The scripts fallback chain of `generateHighlights`: `podcastScripts`,
else a single-host turn from `transcription`, else from `summary`. -/
def resolveScripts (t : PodcastTaskRecord) : Option (List PodcastScript) :=
  match t.podcastScripts with
  | some s => some s
  | none =>
    if optTruthy t.transcription then
      some [⟨"host1", "主持人", t.transcription.getD ""⟩]
    else if optTruthy t.summary then
      some [⟨"host1", "主持人", t.summary.getD ""⟩]
    else none

/-- A Highlight row persisted by `saveHighlight`. -/
structure SavedHighlight where
  title : String
  description : String
  startTime : Nat
  endTime : Nat
  duration : Nat
  audioUrl : String
  transcript : String
  deriving Repr, DecidableEq

/-- The per-highlight loop of `generateHighlights`: clip the audio
(`clipResult i` is the clip URL of highlight `i`, `none` when clipping or
uploading threw or returned an empty URL/fileKey); a failed clip skips that
highlight and continues, a successful one is persisted. -/
def saveLoop (clipResult : Nat → Option String) :
    List HighlightSegment → Nat → List SavedHighlight
  | [], _ => []
  | h :: rest, i =>
    match clipResult i with
    | none => saveLoop clipResult rest (i + 1)
    | some clipUrl =>
      ⟨h.title, h.description, h.startTime, h.endTime, h.duration,
       clipUrl, h.transcript⟩ :: saveLoop clipResult rest (i + 1)

/-- `podcast.generateHighlights` (`routers.ts`): require an existing,
completed task with an audio asset and some script text, run the segmenter,
then clip and persist each highlight independently; returns the persisted
rows. -/
def generateHighlights (task : Option PodcastTaskRecord)
    (llmSegs : List LLMSegment) (clipResult : Nat → Option String) :
    Except String (List SavedHighlight) :=
  match task with
  | none => .error "找不到該任務"
  | some t =>
    if t.status ≠ TaskStatus.completed then
      .error "Podcast 還未生成完成，無法生成精華片段"
    else
      match taskAudioUrl t with
      | none => .error "音檔不存在，無法生成精華片段"
      | some _ =>
        match resolveScripts t with
        | none => .error "Podcast 文字資料不存在，無法生成精華片段"
        | some scripts =>
          .ok (saveLoop clipResult (identifyHighlights scripts llmSegs) 0)

end Podesign

namespace Podesign

/-! ## Theorems for claim C9 -/

/-- Claim C9 counterexample: A completed task with an audio asset and a
single one-character turn yields a persisted Highlight with duration 1,
violating the claimed invariant `2 ≤ duration`. -/
theorem generateHighlights_duration_below_2 :
    generateHighlights
        (some ⟨TaskStatus.completed, some "pod.mp3", none,
               some [⟨"host1", "", "a"⟩], none, none⟩)
        [⟨"t", "d", 0, 0, "r"⟩] (fun _ => some "clip.mp3") =
      .ok [⟨"t", "d", 0, 1, 1, "clip.mp3", ": a"⟩] ∧
    ¬ (2 ≤ (1 : Nat)) :=
  ⟨rfl, by decide⟩

/-- Every row produced by the save loop copies its timing fields from some
segmenter output (shared helper). -/
theorem saveLoop_mem (clipResult : Nat → Option String) :
    ∀ (hl : List HighlightSegment) (i : Nat) (s : SavedHighlight),
      s ∈ saveLoop clipResult hl i →
      ∃ h ∈ hl, s.startTime = h.startTime ∧ s.endTime = h.endTime ∧
        s.duration = h.duration := by
  intro hl
  induction hl with
  | nil => intro i s hs; simp [saveLoop] at hs
  | cons h rest ih =>
    intro i s hs
    cases hclip : clipResult i with
    | none =>
      rw [saveLoop, hclip] at hs
      rcases ih (i + 1) s hs with ⟨h', hmem, hfields⟩
      exact ⟨h', List.mem_cons_of_mem h hmem, hfields⟩
    | some u =>
      rw [saveLoop, hclip] at hs
      rcases List.mem_cons.mp hs with hs | hs
      · refine ⟨h, List.mem_cons_self h rest, ?_⟩
        rw [hs]
        exact ⟨rfl, rfl, rfl⟩
      · rcases ih (i + 1) s hs with ⟨h', hmem, hfields⟩
        exact ⟨h', List.mem_cons_of_mem h hmem, hfields⟩

/-- Claim C9 amended: Every Highlight persisted by `generateHighlights` is
created only from an existing, completed Task with an available audio
asset, and satisfies `duration ≤ 59` (hence `≤ 60`) and
`endTime - startTime = duration`; the lower bound `2 ≤ duration` is *not*
enforced at creation (it is only checked later, at avatar-video
submission). -/
theorem generateHighlights_persisted_invariants
    (task : Option PodcastTaskRecord) (segs : List LLMSegment)
    (clipResult : Nat → Option String) (l : List SavedHighlight)
    (hok : generateHighlights task segs clipResult = .ok l) :
    (∃ t, task = some t ∧ t.status = TaskStatus.completed ∧
      (taskAudioUrl t).isSome) ∧
    ∀ s ∈ l, s.duration ≤ 59 ∧ s.endTime - s.startTime = s.duration := by
  cases task with
  | none => simp [generateHighlights] at hok
  | some t =>
    by_cases hst : t.status = TaskStatus.completed
    · rw [generateHighlights] at hok
      simp only [hst, ne_eq, not_true_eq_false, if_false] at hok
      cases hau : taskAudioUrl t with
      | none => rw [hau] at hok; cases hok
      | some u =>
        rw [hau] at hok
        cases hsc : resolveScripts t with
        | none => rw [hsc] at hok; cases hok
        | some scripts =>
          rw [hsc] at hok
          refine ⟨⟨t, rfl, hst, by rw [hau]; rfl⟩, ?_⟩
          intro s hs
          have hl : l = saveLoop clipResult (identifyHighlights scripts segs) 0 :=
            (Except.ok.injEq _ _).mp hok.symm
          rw [hl] at hs
          rcases saveLoop_mem clipResult (identifyHighlights scripts segs) 0 s hs
            with ⟨h, hmem, hstart, hend, hdur⟩
          rcases highlightSegment_bounds scripts segs h hmem with ⟨hsub, hle, -⟩
          refine ⟨hdur ▸ hle, ?_⟩
          rw [hstart, hend, hdur]
          exact hsub
    · rw [generateHighlights] at hok
      simp only [hst, ne_eq, not_false_eq_true, if_true] at hok
      cases hok

/-- Witness for `generateHighlights_persisted_invariants` at a concrete
completed task. -/
theorem generateHighlights_persisted_invariants_witness :
    (∃ t, (some (⟨TaskStatus.completed, some "pod.mp3", none,
            some [⟨"host1", "A", "hello world this is fine"⟩], none, none⟩ :
            PodcastTaskRecord)) = some t ∧
       t.status = TaskStatus.completed ∧ (taskAudioUrl t).isSome) ∧
    ∀ s ∈ [(⟨"t", "d", 0, 9, 9, "c.mp3",
             "A: hello world this is fine"⟩ : SavedHighlight)],
      s.duration ≤ 59 ∧ s.endTime - s.startTime = s.duration :=
  generateHighlights_persisted_invariants
    (some ⟨TaskStatus.completed, some "pod.mp3", none,
           some [⟨"host1", "A", "hello world this is fine"⟩], none, none⟩)
    [⟨"t", "d", 0, 0, "r"⟩] (fun _ => some "c.mp3")
    [⟨"t", "d", 0, 9, 9, "c.mp3", "A: hello world this is fine"⟩] rfl

end Podesign
